import Mathlib

/-!
Formal model of the n8n webhook desktop clients (src/main.py and src/app.py).

The development shallowly embeds the request lifecycle of the two PySide6
variants: the worker objects (`RequestWorker.run`, `UploadWorker.run`), the
tab-level submit handlers (`ChatTab.send_message`, `UploadTab._send_files`,
`WebhookClient._handle_send_chat`), the completion handlers and the cleanup
step, the configuration loader (`load_config`) and the settings save handlers
(`ParamsTab._save_webhook`, `WebhookClient._handle_save_settings`).

External collaborators are modelled from their documented behaviour:
the `json` module (`json.dumps(..., ensure_ascii=False, indent=2)` and the
values `response.json()` can produce), Python `str.strip`, Python `dict`
merging, and the `requests` library (`raise_for_status` raises exactly for
status codes 400 to 599; transport failures surface as `RequestException`).
-/

/-! ## Python string helpers -/

/-- Characters Python `str.strip()` removes: the Unicode whitespace set used
by `str.isspace` (tab, LF, VT, FF, CR, FS..US, space, NEL, NBSP and the
Unicode space separators). -/
def isPySpace (c : Char) : Bool :=
  c.toNat = 9 || c.toNat = 10 || c.toNat = 11 || c.toNat = 12 || c.toNat = 13 ||
  (28 ≤ c.toNat && c.toNat ≤ 32) || c.toNat = 133 || c.toNat = 160 ||
  c.toNat = 5760 || (8192 ≤ c.toNat && c.toNat ≤ 8202) || c.toNat = 8232 ||
  c.toNat = 8233 || c.toNat = 8239 || c.toNat = 8287 || c.toNat = 12288

/-- Strip leading and trailing Python whitespace from a character list. -/
def stripChars (l : List Char) : List Char :=
  ((l.dropWhile isPySpace).reverse.dropWhile isPySpace).reverse

/-- Python `str.strip()`. -/
def pyStrip (s : String) : String := String.mk (stripChars s.data)

/-- The decimal digit character for a digit value (values above nine clamp
to the character for nine; callers only pass values below ten). -/
def digitChar (n : Nat) : Char :=
  if n = 0 then '0' else if n = 1 then '1' else if n = 2 then '2'
  else if n = 3 then '3' else if n = 4 then '4' else if n = 5 then '5'
  else if n = 6 then '6' else if n = 7 then '7' else if n = 8 then '8' else '9'

/-- Decimal representation of a natural number, as Python `str(int)` writes
a nonnegative integer. -/
def natRepr (n : Nat) : List Char :=
  if _h : n < 10 then [digitChar n]
  else natRepr (n / 10) ++ [digitChar (n % 10)]
decreasing_by exact Nat.div_lt_self (by omega) (by omega)

/-- Python `str(int)` for an arbitrary integer. -/
def intRepr (n : Int) : List Char :=
  if n < 0 then '-' :: natRepr n.natAbs else natRepr n.toNat

/-! ## The JSON data model

`response.json()` yields `None`, booleans, numbers, strings, lists and
dicts.  Floating point numbers are outside the shallow embedding; numbers
are modelled as integers.  Lists and dicts are modelled by the mutual
inductives `JsonArr` and `JsonObj` (in insertion order, as Python preserves
it). -/

mutual
inductive Json where
  | null : Json
  | bool (b : Bool) : Json
  | num (n : Int) : Json
  | str (s : String) : Json
  | arr (items : JsonArr) : Json
  | obj (fields : JsonObj) : Json

inductive JsonArr where
  | nil : JsonArr
  | cons (head : Json) (tail : JsonArr) : JsonArr

inductive JsonObj where
  | nil : JsonObj
  | cons (key : String) (value : Json) (tail : JsonObj) : JsonObj
end

/-! ## json.dumps(data, ensure_ascii=False, indent=2) -/

/-- Lowercase hexadecimal digit character (clamps above fifteen). -/
def hexDigitChar (n : Nat) : Char :=
  if n = 0 then '0' else if n = 1 then '1' else if n = 2 then '2'
  else if n = 3 then '3' else if n = 4 then '4' else if n = 5 then '5'
  else if n = 6 then '6' else if n = 7 then '7' else if n = 8 then '8'
  else if n = 9 then '9' else if n = 10 then 'a' else if n = 11 then 'b'
  else if n = 12 then 'c' else if n = 13 then 'd' else if n = 14 then 'e'
  else 'f'

/-- How `json.dumps(..., ensure_ascii=False)` escapes one character inside a
string literal: quote and backslash get a backslash escape, the five named
control characters get their short escapes, the remaining control characters
below 0x20 get a `\u00XX` escape, everything else is written literally. -/
def escChar (c : Char) : List Char :=
  if c = '"' then ['\\', '"']
  else if c = '\\' then ['\\', '\\']
  else if c = '\n' then ['\\', 'n']
  else if c = '\t' then ['\\', 't']
  else if c = '\r' then ['\\', 'r']
  else if c = '\x08' then ['\\', 'b']
  else if c = '\x0c' then ['\\', 'f']
  else if c.toNat < 32 then
    ['\\', 'u', '0', '0', hexDigitChar (c.toNat / 16), hexDigitChar (c.toNat % 16)]
  else [c]

/-- Escape every character of a string body. -/
def escapeChars : List Char → List Char
  | [] => []
  | c :: rest => escChar c ++ escapeChars rest

/-- An indentation run of spaces. -/
def spaces (n : Nat) : List Char := List.replicate n ' '

/-- The opening curly bracket character. -/
def lbrace : Char := '\x7b'

/-- The closing curly bracket character. -/
def rbrace : Char := '\x7d'

mutual
/-- `json.dumps(v, ensure_ascii=False, indent=2)` at current indent `k`:
scalars print inline, a nonempty container opens with a newline, indents its
members by two more spaces, separates them with a comma and newline, and
closes at the enclosing indent. -/
def dumps : Nat → Json → List Char
  | _, .null => ['n', 'u', 'l', 'l']
  | _, .bool true => ['t', 'r', 'u', 'e']
  | _, .bool false => ['f', 'a', 'l', 's', 'e']
  | _, .num n => intRepr n
  | _, .str s => '"' :: (escapeChars s.data ++ ['"'])
  | _, .arr .nil => ['[', ']']
  | k, .arr (.cons h t) =>
    '[' :: '\n' :: (dumpsItems (k + 2) (.cons h t) ++ '\n' :: (spaces k ++ [']']))
  | _, .obj .nil => [lbrace, rbrace]
  | k, .obj (.cons key v t) =>
    lbrace :: '\n' :: (dumpsFields (k + 2) (.cons key v t) ++ '\n' :: (spaces k ++ [rbrace]))

/-- The members of a nonempty array, each on its own indented line. -/
def dumpsItems : Nat → JsonArr → List Char
  | _, .nil => []
  | k, .cons h .nil => spaces k ++ dumps k h
  | k, .cons h (.cons h2 t2) =>
    (spaces k ++ dumps k h) ++ ',' :: '\n' :: dumpsItems k (.cons h2 t2)

/-- The members of a nonempty object: indented quoted key, colon, space,
value. -/
def dumpsFields : Nat → JsonObj → List Char
  | _, .nil => []
  | k, .cons key v .nil =>
    spaces k ++ ('"' :: (escapeChars key.data ++ ('"' :: ':' :: ' ' :: dumps k v)))
  | k, .cons key v (.cons k2 v2 t2) =>
    (spaces k ++ ('"' :: (escapeChars key.data ++ ('"' :: ':' :: ' ' :: dumps k v)))) ++
      ',' :: '\n' :: dumpsFields k (.cons k2 v2 t2)
end

/-! ## Sizes (fuel bounds for the parser) -/

mutual
/-- Structural size of a JSON value. -/
def jsize : Json → Nat
  | .null => 1
  | .bool _ => 1
  | .num _ => 1
  | .str _ => 1
  | .arr a => 1 + asize a
  | .obj o => 1 + osize o

/-- Structural size of an array tail. -/
def asize : JsonArr → Nat
  | .nil => 0
  | .cons h t => 1 + jsize h + asize t

/-- Structural size of an object tail. -/
def osize : JsonObj → Nat
  | .nil => 0
  | .cons _ v t => 1 + jsize v + osize t
end

/-! ## A JSON parser (to state the re-parse round trip) -/

/-- Whitespace the parser skips between tokens. -/
def isWsChar (c : Char) : Bool :=
  c = ' ' || c = '\n' || c = '\t' || c = '\r'

/-- Drop leading whitespace. -/
def skipWs : List Char → List Char
  | [] => []
  | c :: rest => if isWsChar c then skipWs rest else c :: rest

/-- Decimal digit test. -/
def isDigitChar (c : Char) : Bool :=
  48 ≤ c.toNat && c.toNat ≤ 57

/-- Split off the longest leading run of decimal digits. -/
def takeDigits : List Char → List Char × List Char
  | [] => ([], [])
  | c :: rest =>
    if isDigitChar c then
      let p := takeDigits rest
      (c :: p.1, p.2)
    else ([], c :: rest)

/-- Value of a digit string, most significant digit first. -/
def digitsToNat (ds : List Char) : Nat :=
  ds.foldl (fun a c => 10 * a + (c.toNat - 48)) 0

/-- Parse a nonempty run of digits as a natural number. -/
def parseNat (cs : List Char) : Option (Nat × List Char) :=
  match takeDigits cs with
  | ([], _) => none
  | (ds, rest) => some (digitsToNat ds, rest)

/-- Value of one hexadecimal digit character. -/
def hexVal (c : Char) : Option Nat :=
  if 48 ≤ c.toNat && c.toNat ≤ 57 then some (c.toNat - 48)
  else if 97 ≤ c.toNat && c.toNat ≤ 102 then some (c.toNat - 87)
  else if 65 ≤ c.toNat && c.toNat ≤ 70 then some (c.toNat - 55)
  else none

/-- Parse the body of a JSON string literal after the opening quote, up to
and including the closing quote, decoding escapes. -/
def parseStrBody : List Char → Option (List Char × List Char)
  | [] => none
  | c :: rest =>
    if c = '"' then some ([], rest)
    else if c = '\\' then
      match rest with
      | [] => none
      | e :: rest2 =>
        if e = '"' then (parseStrBody rest2).map (fun p => ('"' :: p.1, p.2))
        else if e = '\\' then (parseStrBody rest2).map (fun p => ('\\' :: p.1, p.2))
        else if e = 'n' then (parseStrBody rest2).map (fun p => ('\n' :: p.1, p.2))
        else if e = 't' then (parseStrBody rest2).map (fun p => ('\t' :: p.1, p.2))
        else if e = 'r' then (parseStrBody rest2).map (fun p => ('\r' :: p.1, p.2))
        else if e = 'b' then (parseStrBody rest2).map (fun p => ('\x08' :: p.1, p.2))
        else if e = 'f' then (parseStrBody rest2).map (fun p => ('\x0c' :: p.1, p.2))
        else if e = 'u' then
          match rest2 with
          | h1 :: h2 :: h3 :: h4 :: rest3 =>
            match hexVal h1, hexVal h2, hexVal h3, hexVal h4 with
            | some a, some b, some c3, some d =>
              (parseStrBody rest3).map
                (fun p => (Char.ofNat (((a * 16 + b) * 16 + c3) * 16 + d) :: p.1, p.2))
            | _, _, _, _ => none
          | _ => none
        else none
    else (parseStrBody rest).map (fun p => (c :: p.1, p.2))

mutual
/-- Recursive-descent JSON value parser with explicit fuel. -/
def parseValue : Nat → List Char → Option (Json × List Char)
  | 0, _ => none
  | fuel + 1, cs =>
    match skipWs cs with
    | [] => none
    | c :: r =>
      if c = 'n' then
        match r with
        | c1 :: c2 :: c3 :: r2 =>
          if c1 = 'u' && c2 = 'l' && c3 = 'l' then some (.null, r2) else none
        | _ => none
      else if c = 't' then
        match r with
        | c1 :: c2 :: c3 :: r2 =>
          if c1 = 'r' && c2 = 'u' && c3 = 'e' then some (.bool true, r2) else none
        | _ => none
      else if c = 'f' then
        match r with
        | c1 :: c2 :: c3 :: c4 :: r2 =>
          if c1 = 'a' && c2 = 'l' && c3 = 's' && c4 = 'e' then some (.bool false, r2)
          else none
        | _ => none
      else if c = '"' then
        match parseStrBody r with
        | some (s, r2) => some (.str (String.mk s), r2)
        | none => none
      else if c = '[' then
        match skipWs r with
        | c2 :: r2 =>
          if c2 = ']' then some (.arr .nil, r2)
          else
            match parseElems fuel r with
            | some (a, r3) => some (.arr a, r3)
            | none => none
        | [] => none
      else if c = lbrace then
        match skipWs r with
        | c2 :: r2 =>
          if c2 = rbrace then some (.obj .nil, r2)
          else
            match parseFields fuel r with
            | some (o, r3) => some (.obj o, r3)
            | none => none
        | [] => none
      else if c = '-' then
        match parseNat r with
        | some (m, r2) => some (.num (-(m : Int)), r2)
        | none => none
      else if isDigitChar c then
        match parseNat (c :: r) with
        | some (m, r2) => some (.num (m : Int), r2)
        | none => none
      else none

/-- Parse the members of a nonempty array after the opening bracket. -/
def parseElems : Nat → List Char → Option (JsonArr × List Char)
  | 0, _ => none
  | fuel + 1, cs =>
    match parseValue fuel cs with
    | none => none
    | some (v, r) =>
      match skipWs r with
      | c :: r2 =>
        if c = ',' then
          match parseElems fuel r2 with
          | some (a, r3) => some (.cons v a, r3)
          | none => none
        else if c = ']' then some (.cons v .nil, r2)
        else none
      | [] => none

/-- Parse the members of a nonempty object after the opening brace. -/
def parseFields : Nat → List Char → Option (JsonObj × List Char)
  | 0, _ => none
  | fuel + 1, cs =>
    match skipWs cs with
    | c :: r =>
      if c = '"' then
        match parseStrBody r with
        | some (key, r1) =>
          match skipWs r1 with
          | c2 :: r2 =>
            if c2 = ':' then
              match parseValue fuel r2 with
              | some (v, r3) =>
                match skipWs r3 with
                | c3 :: r4 =>
                  if c3 = ',' then
                    match parseFields fuel r4 with
                    | some (o, r5) => some (.cons (String.mk key) v o, r5)
                    | none => none
                  else if c3 = rbrace then some (.cons (String.mk key) v .nil, r4)
                  else none
                | [] => none
              | none => none
            else none
          | [] => none
        | none => none
      else none
    | [] => none
end

/-- Guard on what may follow a serialized number: the parse of a digit run
must not be extended by the first character of the remainder. -/
def restOk : List Char → Bool
  | [] => true
  | c :: _ => !isDigitChar c


/-! ## The transport layer (RequestWorker.run / UploadWorker.run)

`response.json()` either parses the body as JSON or raises `ValueError`, in
which case the code falls back to `response.text`. -/

/-- What `finished.emit` carries: the parsed JSON body, or the raw response
text when JSON parsing failed. -/
inductive RespData where
  | json (j : Json) : RespData
  | text (s : String) : RespData

/-- One emission of a worker signal: `finished(data)` or `error(str(exc))`. -/
inductive Emit where
  | finished (d : RespData) : Emit
  | error (m : String) : Emit

/-- The outcome of one `requests.post` call: a `RequestException` (DNS
failure, refused connection, timeout, invalid URL), or a response with a
status code and a body. -/
inductive HttpAttempt where
  | exc (msg : String) : HttpAttempt
  | resp (status : Nat) (body : RespData) : HttpAttempt

/-- `Response.raise_for_status` raises `HTTPError` exactly for status codes
400 to 599 (modelled from the `requests` library). -/
def raiseForStatusFails (status : Nat) : Bool :=
  400 ≤ status && status ≤ 599

/-- The `str(HTTPError)` text produced by `raise_for_status` (modelled from
the `requests` library; the claims depend only on it being a string). -/
def httpErrorText (status : Nat) (url : String) : String :=
  (if status ≤ 499 then String.mk (natRepr status) ++ " Client Error for url: "
   else String.mk (natRepr status) ++ " Server Error for url: ") ++ url

/-- The JSON body `requests.post(url, json={"message": message})` sends. -/
def chatRequestBody (message : String) : Json :=
  .obj (.cons "message" (.str message) .nil)

/-- The HTTP request `RequestWorker.run` posts. -/
structure ChatRequest where
  url : String
  jsonBody : Json
  timeout : Nat

/-- `RequestWorker.run` (src/main.py lines 54-65): post the message as a
JSON body with a 20 second timeout, `raise_for_status`, parse the body as
JSON falling back to the raw text, and emit `finished(data)`; any
`RequestException` is caught and emitted as `error(str(exc))`.  The second
component is the request that was posted. -/
def requestWorkerRun (url message : String) (t : HttpAttempt) :
    List Emit × ChatRequest :=
  (match t with
   | .exc m => [.error m]
   | .resp status body =>
     if raiseForStatusFails status then [.error (httpErrorText status url)]
     else [.finished body],
   ⟨url, chatRequestBody message, 20⟩)

/-- The result of opening one selected file: its bytes, or `str(exc)` of the
`OSError` the open raised. -/
inductive FileRead where
  | ok (data : String) : FileRead
  | err (msg : String) : FileRead

/-- One file selected for upload: `file_path.name` and what opening it in
binary mode yields. -/
structure FileSpec where
  name : String
  read : FileRead

/-- One part of the multipart body: field name, original filename, content
type. -/
structure UploadPart where
  field : String
  filename : String
  contentType : String
deriving DecidableEq

/-- The multipart HTTP request `UploadWorker.run` posts. -/
structure UploadRequest where
  url : String
  parts : List UploadPart
  timeout : Nat
deriving DecidableEq

/-- The multipart parts built by the enumerate loop in `UploadWorker.run`:
field names `file0`, `file1`, ... in input order, each part carrying
`file_path.name` and content type `text/plain`. -/
def buildParts : Nat → List FileSpec → List UploadPart
  | _, [] => []
  | i, f :: fs => ⟨"file" ++ String.mk (natRepr i), f.name, "text/plain"⟩ :: buildParts (i + 1) fs

/-- The first `OSError` raised while the `ExitStack` opens the files in
order, if any. -/
def firstReadError : List FileSpec → Option String
  | [] => none
  | f :: fs =>
    match f.read with
    | .err m => some m
    | .ok _ => firstReadError fs

/-- `UploadWorker.run` (src/main.py lines 79-104): an empty URL emits
`error("Aucun webhook configuré.")` before anything else; otherwise the
files are opened (an `OSError` is caught and emitted as `error`), the
multipart request is posted with a 60 second timeout, and the response is
handled as in `RequestWorker.run`.  The second component is the request
that was posted, or `none` when no network request was attempted. -/
def uploadWorkerRun (url : String) (files : List FileSpec) (t : HttpAttempt) :
    List Emit × Option UploadRequest :=
  if url = "" then ([.error "Aucun webhook configuré."], none)
  else
    match firstReadError files with
    | some m => ([.error m], none)
    | none =>
      (match t with
       | .exc m => [.error m]
       | .resp status body =>
         if raiseForStatusFails status then [.error (httpErrorText status url)]
         else [.finished body],
       some ⟨url, buildParts 0 files, 60⟩)

/-! ## Rendering a response (ChatTab._handle_response / UploadTab._handle_response)

`if isinstance(data, (dict, list)): pretty = json.dumps(data,
ensure_ascii=False, indent=2) else: pretty = str(data)`. -/

/-- The text both `_handle_response` handlers display for the data carried
by `finished`. -/
def renderResponseText : RespData → String
  | .json .null => "None"
  | .json (.bool true) => "True"
  | .json (.bool false) => "False"
  | .json (.num n) => String.mk (intRepr n)
  | .json (.str s) => s
  | .json (.arr a) => String.mk (dumps 0 (.arr a))
  | .json (.obj o) => String.mk (dumps 0 (.obj o))
  | .text s => s

/-- Whether `isinstance(data, (dict, list))` holds for a JSON value. -/
def isStructured : Json → Bool
  | .arr _ => true
  | .obj _ => true
  | _ => false

/-! ## The chat tab (ChatTab, src/main.py) -/

/-- The role attached to a chat bubble. -/
inductive Role where
  | user : Role
  | agent : Role
  | error : Role
deriving DecidableEq

/-- One entry of the message log (one chat bubble, in append order). -/
structure Entry where
  role : Role
  text : String
deriving DecidableEq

/-- Observable side effects of the handlers, in execution order. -/
inductive Effect where
  | appendEntry (e : Entry) : Effect
  | clearInput : Effect
  | setInputsEnabled (b : Bool) : Effect
  | dispatchThread : Effect
  | cleanupDone : Effect
  | showResult (text : String) : Effect
deriving DecidableEq

/-- The UI state of `ChatTab`: the bubbles added so far, the input field
text, whether the input field and send button are enabled, whether a worker
thread is running, and the webhook URL. -/
structure ChatState where
  log : List Entry
  inputText : String
  inputEnabled : Bool
  threadRunning : Bool
  webhookUrl : String
deriving DecidableEq

/-- `ChatTab.send_message` (src/main.py lines 211-233): strip the input; an
empty message returns; an empty webhook URL adds an error bubble and
returns; otherwise add the user bubble, clear the input, disable the
inputs, and start the worker thread.  Returns the new state and the trace
of effects. -/
def send_message (s : ChatState) : ChatState × List Effect :=
  let message := pyStrip s.inputText
  if message = "" then (s, [])
  else if s.webhookUrl = "" then
    ({ s with log := s.log ++ [⟨.error, "Aucun webhook configuré."⟩] },
     [.appendEntry ⟨.error, "Aucun webhook configuré."⟩])
  else
    ({ s with log := s.log ++ [⟨.user, message⟩], inputText := "",
              inputEnabled := false, threadRunning := true },
     [.appendEntry ⟨.user, message⟩, .clearInput, .setInputsEnabled false, .dispatchThread])

/-- `ChatTab._cleanup_thread` (src/main.py lines 235-244): quit and release
the thread, clear both handles, re-enable the inputs. -/
def cleanup_thread (s : ChatState) : ChatState :=
  { s with threadRunning := false, inputEnabled := true }

/-- `ChatTab._handle_response`: append an agent bubble with the rendered
data. -/
def handle_response (s : ChatState) (d : RespData) : ChatState :=
  { s with log := s.log ++ [⟨.agent, renderResponseText d⟩] }

/-- `ChatTab._handle_error`: append an error bubble. -/
def handle_error (s : ChatState) (m : String) : ChatState :=
  { s with log := s.log ++ [⟨.error, "Erreur : " ++ m⟩] }

/-- Delivery of one worker signal to the connected slots, in connection
order: `finished` runs `_handle_response` then `_cleanup_thread`; `error`
runs `_handle_error` then `_cleanup_thread`. -/
def deliverEmit (s : ChatState) (e : Emit) : ChatState × List Effect :=
  match e with
  | .finished d =>
    (cleanup_thread (handle_response s d),
     [.appendEntry ⟨.agent, renderResponseText d⟩, .cleanupDone, .setInputsEnabled true])
  | .error m =>
    (cleanup_thread (handle_error s m),
     [.appendEntry ⟨.error, "Erreur : " ++ m⟩, .cleanupDone, .setInputsEnabled true])

/-- Deliver a list of worker signals in order. -/
def deliverEmits (s : ChatState) : List Emit → ChatState × List Effect
  | [] => (s, [])
  | e :: es =>
    let p := deliverEmit s e
    let q := deliverEmits p.1 es
    (q.1, p.2 ++ q.2)

/-- Completion of one chat submission: the worker run emits its signals
(from the snapshot of URL and message taken at dispatch) and each is
delivered to the slots. -/
def completeRequest (s : ChatState) (url message : String) (t : HttpAttempt) :
    ChatState × List Effect :=
  deliverEmits s (requestWorkerRun url message t).1

/-- The events that can reach a `ChatTab`. Typing requires the input field
to be enabled; a worker can only complete while its thread runs. -/
inductive ChatEvent where
  | typeText (t : String) : ChatEvent
  | pressSend : ChatEvent
  | setUrl (u : String) : ChatEvent
  | workerDone (url message : String) (t : HttpAttempt) : ChatEvent

/-- One step of the chat tab. -/
def chatStep (s : ChatState) (e : ChatEvent) : ChatState :=
  match e with
  | .typeText t => if s.inputEnabled then { s with inputText := t } else s
  | .pressSend => (send_message s).1
  | .setUrl u => { s with webhookUrl := u }
  | .workerDone url message t =>
    if s.threadRunning then (completeRequest s url message t).1 else s

/-- The chat tab as constructed (src/main.py `ChatTab.__init__`). -/
def initChat (url : String) : ChatState :=
  { log := [], inputText := "", inputEnabled := true, threadRunning := false,
    webhookUrl := url }

/-- The chat states the running program can be in. -/
inductive ChatReach : ChatState → Prop where
  | init (url : String) : ChatReach (initChat url)
  | step (s : ChatState) (e : ChatEvent) : ChatReach s → ChatReach (chatStep s e)

/-- In-flight invariant of the chat tab: while the worker thread runs, the
input field has been cleared and the inputs are disabled. -/
def ChatInv (s : ChatState) : Prop :=
  s.threadRunning = true → s.inputText = "" ∧ s.inputEnabled = false

/-! ## The upload tab (UploadTab, src/main.py) -/

/-- The UI state of `UploadTab`: the result text box, the selected files,
whether the buttons are enabled, whether a worker thread is running, and
the webhook URL. -/
structure UploadState where
  resultText : String
  selectedFiles : List String
  inputsEnabled : Bool
  threadRunning : Bool
  webhookUrl : String
deriving DecidableEq

/-- `UploadTab._show_result`: replace the text of the result box. -/
def show_result (s : UploadState) (text : String) : UploadState :=
  { s with resultText := text }

/-- `UploadTab._send_files` (src/main.py lines 426-447): no selected files
shows a prompt and returns; a running thread returns; otherwise show the
progress text, disable the inputs, and start the worker thread. -/
def send_files (s : UploadState) : UploadState × List Effect :=
  if s.selectedFiles = [] then
    (show_result s "Veuillez sélectionner des fichiers .txt avant l\x27envoi.",
     [.showResult "Veuillez sélectionner des fichiers .txt avant l\x27envoi."])
  else if s.threadRunning then (s, [])
  else
    ({ s with resultText := "Envoi en cours…", inputsEnabled := false,
              threadRunning := true },
     [.showResult "Envoi en cours…", .setInputsEnabled false, .dispatchThread])

/-- `UploadTab._cleanup_thread` (src/main.py lines 449-458). -/
def upload_cleanup_thread (s : UploadState) : UploadState :=
  { s with threadRunning := false, inputsEnabled := true }

/-- Delivery of one upload worker signal: `_handle_response` or
`_handle_error`, then `_cleanup_thread`. -/
def uploadDeliverEmit (s : UploadState) (e : Emit) : UploadState :=
  match e with
  | .finished d => upload_cleanup_thread (show_result s (renderResponseText d))
  | .error m => upload_cleanup_thread (show_result s ("Erreur : " ++ m))

/-- The `unique_paths` dict of `UploadTab._select_files`: str keys preserve
the first occurrence of each path, in order. -/
def dedupKeepFirst : List String → List String
  | [] => []
  | p :: ps => p :: dedupKeepFirst (ps.filter (fun q => q ≠ p))
termination_by l => l.length
decreasing_by
  simp only [List.length_cons]
  exact Nat.lt_succ_of_le (List.length_filter_le _ _)

/-- The events that can reach an `UploadTab`.  The select button only fires
while the inputs are enabled. -/
inductive UploadEvent where
  | selectFiles (ps : List String) : UploadEvent
  | pressSend : UploadEvent
  | setUrl (u : String) : UploadEvent
  | workerDone (url : String) (files : List FileSpec) (t : HttpAttempt) : UploadEvent

/-- One step of the upload tab. -/
def uploadStep (s : UploadState) (e : UploadEvent) : UploadState :=
  match e with
  | .selectFiles ps =>
    if s.inputsEnabled then
      if ps = [] then s
      else { s with selectedFiles := dedupKeepFirst ps }
    else s
  | .pressSend => (send_files s).1
  | .setUrl u => { s with webhookUrl := u }
  | .workerDone url files t =>
    if s.threadRunning then (uploadWorkerRun url files t).1.foldl uploadDeliverEmit s
    else s

/-- The upload tab as constructed (src/main.py `UploadTab.__init__`). -/
def initUpload (url : String) : UploadState :=
  { resultText := "", selectedFiles := [], inputsEnabled := true,
    threadRunning := false, webhookUrl := url }

/-- The upload states the running program can be in. -/
inductive UploadReach : UploadState → Prop where
  | init (url : String) : UploadReach (initUpload url)
  | step (s : UploadState) (e : UploadEvent) : UploadReach s → UploadReach (uploadStep s e)

/-- In-flight invariant of the upload tab: while the worker thread runs,
files are selected and the inputs are disabled. -/
def UploadInv (s : UploadState) : Prop :=
  s.threadRunning = true → s.selectedFiles ≠ [] ∧ s.inputsEnabled = false


/-! ## Python dict as key-value pairs

A Python dict is modelled by its entry list; `dictGet` returns the value of
the last entry for a key, so that list concatenation models both `d[k] = v`
assignment and `{**a, **b}` merging at the level of lookups. -/

/-- Lookup in a Python dict model: the last binding of the key wins. -/
def dictGet : List (String × Json) → String → Option Json
  | [], _ => none
  | (k, v) :: rest, key =>
    match dictGet rest key with
    | some r => some r
    | none => if k = key then some v else none

/-- Python `d[k] = v` at the level of `dictGet` lookups. -/
def pyDictSet (d : List (String × Json)) (k : String) (v : Json) :
    List (String × Json) :=
  d ++ [(k, v)]

/-- The entry list of a JSON object. -/
def objToList : JsonObj → List (String × Json)
  | .nil => []
  | .cons k v t => (k, v) :: objToList t

/-! ## load_config (src/main.py lines 21-32 and src/app.py lines 36-46)

Both files define the same loader: if `config.json` exists, open it and
`json.load` it inside `try ... except (OSError, json.JSONDecodeError)`; a
parsed dict is merged over the defaults, anything else falls through to the
default copy.  A file that exists and is readable but is not valid UTF-8
makes `json.load` raise `UnicodeDecodeError`, which is a `ValueError` but
neither an `OSError` nor a `json.JSONDecodeError`, so it escapes the
`except` clause. -/

/-- The exceptions `load_config` can let escape. -/
inductive PyExc where
  | unicodeDecodeError : PyExc
deriving DecidableEq

/-- The possible states of `config.json` as `load_config` can encounter
them. -/
inductive ConfigFile where
  | absent : ConfigFile
  | osError : ConfigFile
  | undecodable : ConfigFile
  | malformed : ConfigFile
  | parsed (j : Json) : ConfigFile

/-- `DEFAULT_CONFIG` of both files. -/
def DEFAULT_CONFIG : List (String × Json) := [("webhook_url", .str "")]

/-- `load_config`: absent file, `OSError` and `json.JSONDecodeError` all
yield the default copy, as does a parsed value that is not a dict; a parsed
dict is merged over the defaults (`{**DEFAULT_CONFIG, **data}`); a file
whose bytes are not valid UTF-8 raises `UnicodeDecodeError`. -/
def load_config : ConfigFile → Except PyExc (List (String × Json))
  | .absent => .ok DEFAULT_CONFIG
  | .osError => .ok DEFAULT_CONFIG
  | .undecodable => .error .unicodeDecodeError
  | .malformed => .ok DEFAULT_CONFIG
  | .parsed j =>
    match j with
    | .obj o => .ok (DEFAULT_CONFIG ++ objToList o)
    | _ => .ok DEFAULT_CONFIG

/-- Whether a JSON value is a dict. -/
def isObjJson : Json → Bool
  | .obj _ => true
  | _ => false

/-- Lookup through the result of `load_config` (none when it raised). -/
def configGet (r : Except PyExc (List (String × Json))) (key : String) : Option Json :=
  match r with
  | .ok d => dictGet d key
  | .error _ => none

/-! ## Notifications and the settings save handlers -/

/-- How an outcome is reported to the user: not at all, through the inline
status label, or through a modal (blocking) message box. -/
inductive Notification where
  | quiet : Notification
  | label (msg : String) : Notification
  | modal (title msg : String) : Notification
deriving DecidableEq

/-- A modal message box blocks until dismissed; a status label does not. -/
def isBlockingNotification : Notification → Bool
  | .modal _ _ => true
  | _ => false

/-! ## The app.py variant (WebhookClient) -/

/-- The UI state of `WebhookClient` (src/app.py): webhook URL, config dict,
settings input and status label, chat display lines and chat input, and the
upload chooser state. -/
structure AppState where
  webhookUrl : String
  config : List (String × Json)
  webhookInputText : String
  statusText : String
  chatDisplay : List String
  chatInput : String
  selectedFilePath : Option String

/-- `WebhookClient._handle_save_settings` (src/app.py lines 226-241): strip
the input, store it in `webhook_url` and the config dict, then try
`save_config`; on `RuntimeError` (a failed write) show a critical message
box and return without touching the status label; on success set the
status label.  `saveOk` is whether the write succeeded. -/
def handle_save_settings (st : AppState) (saveOk : Bool) : AppState × Notification :=
  let url := pyStrip st.webhookInputText
  let st1 := { st with webhookUrl := url,
                       config := pyDictSet st.config "webhook_url" (.str url) }
  if saveOk then
    ({ st1 with statusText := "Configuration sauvegardée ✔" },
     .label "Configuration sauvegardée ✔")
  else
    (st1,
     .modal "Erreur" "Impossible d\x27enregistrer la configuration. Vérifiez les permissions.")

/-- `WebhookClient._handle_send_chat` (src/app.py lines 243-254): strip the
input; an empty message returns; otherwise append the user line, clear the
input, and append the simulated webhook reply (always nonempty). -/
def handle_send_chat (st : AppState) : AppState :=
  let message := pyStrip st.chatInput
  if message = "" then st
  else
    { st with
      chatDisplay := st.chatDisplay ++
        ["Vous : " ++ message, "Webhook : Message envoyé (simulation)."],
      chatInput := "" }

/-! ## The main.py settings tab (ParamsTab inside MainWindow) -/

/-- The state of `MainWindow` (src/main.py): the chat tab, the upload tab,
the shared config dict, and the params tab input and status label. -/
structure MainWinState where
  chat : ChatState
  upload : UploadState
  config : List (String × Json)
  paramsInputText : String
  paramsStatusText : String

/-- `ParamsTab._save_webhook` (src/main.py lines 311-319): strip the input,
store it in the config dict, then try `save_config`; on success set the
status label and emit `webhook_changed` (which updates both tabs); on
`OSError` set the status label to the error text.  `saveResult` is `none`
on success and `some str(exc)` on `OSError`. -/
def save_webhook (w : MainWinState) (saveResult : Option String) :
    MainWinState × Notification :=
  let url := pyStrip w.paramsInputText
  let w1 := { w with config := pyDictSet w.config "webhook_url" (.str url) }
  match saveResult with
  | none =>
    ({ w1 with paramsStatusText := "Configuration sauvegardée.",
               chat := { w1.chat with webhookUrl := url },
               upload := { w1.upload with webhookUrl := url } },
     .label "Configuration sauvegardée.")
  | some e =>
    ({ w1 with paramsStatusText := "Erreur lors de la sauvegarde : " ++ e },
     .label ("Erreur lors de la sauvegarde : " ++ e))

/-! ## Predicates on effects and attempts (used to state the claims) -/

/-- Whether an effect appends a message-log entry. -/
def isAppendEffect : Effect → Bool
  | .appendEntry _ => true
  | _ => false

/-- Whether an effect appends a user-role entry. -/
def isUserAppend : Effect → Bool
  | .appendEntry e => e.role = .user
  | _ => false

/-- Whether an effect is the cleanup step. -/
def isCleanupEffect : Effect → Bool
  | .cleanupDone => true
  | _ => false

/-- Whether an effect writes the upload result box. -/
def isShowResult : Effect → Bool
  | .showResult _ => true
  | _ => false

/-- Whether an HTTP attempt passes `raise_for_status` (the worker then
emits `finished`). -/
def attemptSucceeds : HttpAttempt → Bool
  | .exc _ => false
  | .resp status _ => !raiseForStatusFails status

/-! ## Concrete states used by the witnesses -/

/-- A chat state reached by typing `hi` and pressing send with a configured
webhook: a request is in flight. -/
def chatInFlight : ChatState :=
  chatStep (chatStep (initChat "http://x") (.typeText "hi")) .pressSend

/-- An upload state reached by selecting one file and pressing send: a
request is in flight. -/
def uploadInFlight : UploadState :=
  uploadStep (uploadStep (initUpload "http://x") (.selectFiles ["a.txt"])) .pressSend

/-- A chat state with a typed message and a configured webhook, ready to
submit. -/
def chatReady : ChatState :=
  { log := [], inputText := "hi", inputEnabled := true, threadRunning := false,
    webhookUrl := "http://x" }

/-- A chat state with a typed message but no webhook configured. -/
def chatNoUrl : ChatState :=
  { log := [], inputText := "hello", inputEnabled := true, threadRunning := false,
    webhookUrl := "" }

/-- An upload state with one selected file and a configured webhook, ready
to submit. -/
def uploadReady : UploadState :=
  { resultText := "", selectedFiles := ["a.txt"], inputsEnabled := true,
    threadRunning := false, webhookUrl := "http://x" }

/-- A main window state used to exercise the settings save handler. -/
def mainWin0 : MainWinState :=
  { chat := initChat "", upload := initUpload "", config := DEFAULT_CONFIG,
    paramsInputText := "http://new", paramsStatusText := "" }

/-- An app.py window state used to exercise the settings save handler. -/
def appState0 : AppState :=
  { webhookUrl := "", config := DEFAULT_CONFIG, webhookInputText := "http://new",
    statusText := "", chatDisplay := [], chatInput := "   ",
    selectedFilePath := none }

/-- One readable selected file. -/
def oneFile : List FileSpec := [⟨"a.txt", .ok "contents"⟩]

/-- Two readable selected files. -/
def twoFiles : List FileSpec := [⟨"a.txt", .ok "a"⟩, ⟨"b.txt", .ok "b"⟩]

/-- The multipart request the upload worker builds for `twoFiles`. -/
def uploadReq2 : UploadRequest := ⟨"http://x", buildParts 0 twoFiles, 60⟩

/-! ## Lemmas: the printed form parses back (round trip) -/

theorem char_eq_toNat (c d : Char) : (c = d) = (c.toNat = d.toNat) := by
  simp only [eq_iff_iff]
  constructor
  · intro h; rw [h]
  · intro h; rw [← Char.ofNat_toNat c, ← Char.ofNat_toNat d, h]

theorem hexVal_hexDigitChar (m : Nat) (h : m < 16) : hexVal (hexDigitChar m) = some m := by
  interval_cases m <;> decide


theorem parseStrBody_escape (s : List Char) :
    ∀ rest, parseStrBody (escapeChars s ++ ('"' :: rest)) = some (s, rest) := by
  induction s with
  | nil =>
    intro rest
    rw [escapeChars, List.nil_append, parseStrBody.eq_def]
    simp
  | cons c s ih =>
    intro rest
    rw [escapeChars, List.append_assoc]
    by_cases h1 : c = '"'
    · subst h1
      rw [show escChar '"' = ['\\', '"'] from by decide]
      rw [parseStrBody.eq_def]; simp [ih]
    by_cases h2 : c = '\\'
    · subst h2
      rw [show escChar '\\' = ['\\', '\\'] from by decide]
      rw [parseStrBody.eq_def]; simp [ih]
    by_cases h3 : c = '\n'
    · subst h3
      rw [show escChar '\n' = ['\\', 'n'] from by decide]
      rw [parseStrBody.eq_def]; simp [ih]
    by_cases h4 : c = '\t'
    · subst h4
      rw [show escChar '\t' = ['\\', 't'] from by decide]
      rw [parseStrBody.eq_def]; simp [ih]
    by_cases h5 : c = '\r'
    · subst h5
      rw [show escChar '\r' = ['\\', 'r'] from by decide]
      rw [parseStrBody.eq_def]; simp [ih]
    by_cases h6 : c = '\x08'
    · subst h6
      rw [show escChar '\x08' = ['\\', 'b'] from by decide]
      rw [parseStrBody.eq_def]; simp [ih]
    by_cases h7 : c = '\x0c'
    · subst h7
      rw [show escChar '\x0c' = ['\\', 'f'] from by decide]
      rw [parseStrBody.eq_def]; simp [ih]
    by_cases h8 : c.toNat < 32
    · rw [escChar]
      simp only [if_neg h1, if_neg h2, if_neg h3, if_neg h4, if_neg h5, if_neg h6, if_neg h7,
        if_pos h8]
      rw [parseStrBody.eq_def]
      simp only [List.cons_append]
      simp only [if_neg (show ¬ ('\\' : Char) = '"' from by decide), if_pos rfl]
      simp only [if_neg (show ¬ ('u' : Char) = '"' from by decide),
        if_neg (show ¬ ('u' : Char) = '\\' from by decide),
        if_neg (show ¬ ('u' : Char) = 'n' from by decide),
        if_neg (show ¬ ('u' : Char) = 't' from by decide),
        if_neg (show ¬ ('u' : Char) = 'r' from by decide),
        if_neg (show ¬ ('u' : Char) = 'b' from by decide),
        if_neg (show ¬ ('u' : Char) = 'f' from by decide),
        if_pos rfl]
      have hv0 : hexVal '0' = some 0 := by decide
      have hv1 : hexVal (hexDigitChar (c.toNat / 16)) = some (c.toNat / 16) :=
        hexVal_hexDigitChar _ (by omega)
      have hv2 : hexVal (hexDigitChar (c.toNat % 16)) = some (c.toNat % 16) :=
        hexVal_hexDigitChar _ (by omega)
      simp only [hv0, hv1, hv2, if_true, List.nil_append]
      rw [ih]
      have harith2 : c.toNat / 16 * 16 + c.toNat % 16 = c.toNat := by omega
      simp [harith2, Char.ofNat_toNat]
    · rw [escChar]
      simp only [if_neg h1, if_neg h2, if_neg h3, if_neg h4, if_neg h5, if_neg h6, if_neg h7,
        if_neg h8, List.singleton_append]
      rw [parseStrBody.eq_def]
      simp [h1, h2, ih]

theorem digitChar_isDigit (d : Nat) (h : d < 10) : isDigitChar (digitChar d) = true := by
  interval_cases d <;> decide

theorem digitChar_val (d : Nat) (h : d < 10) : (digitChar d).toNat - 48 = d := by
  interval_cases d <;> decide

theorem natRepr_ne_nil (n : Nat) : natRepr n ≠ [] := by
  rw [natRepr]
  split <;> simp

theorem natRepr_digits (n : Nat) : ∀ c ∈ natRepr n, isDigitChar c = true := by
  induction n using Nat.strong_induction_on with
  | _ n ih =>
    rw [natRepr]
    split
    · next h =>
      intro c hc
      simp only [List.mem_singleton] at hc
      subst hc
      exact digitChar_isDigit n h
    · next h =>
      intro c hc
      rw [List.mem_append] at hc
      rcases hc with hc | hc
      · exact ih (n / 10) (Nat.div_lt_self (by omega) (by omega)) c hc
      · simp only [List.mem_singleton] at hc
        subst hc
        exact digitChar_isDigit _ (Nat.mod_lt _ (by omega))

theorem digitsToNat_append_one (ds : List Char) (c : Char) :
    digitsToNat (ds ++ [c]) = 10 * digitsToNat ds + (c.toNat - 48) := by
  simp [digitsToNat, List.foldl_append]

theorem digitsToNat_natRepr (n : Nat) : digitsToNat (natRepr n) = n := by
  induction n using Nat.strong_induction_on with
  | _ n ih =>
    rw [natRepr]
    split
    · next h =>
      simp [digitsToNat, digitChar_val n h]
    · next h =>
      rw [digitsToNat_append_one, ih (n / 10) (Nat.div_lt_self (by omega) (by omega)),
        digitChar_val _ (Nat.mod_lt _ (by omega))]
      omega

theorem takeDigits_of_digits (ds : List Char) :
    ∀ rest, (∀ c ∈ ds, isDigitChar c = true) → restOk rest = true →
      takeDigits (ds ++ rest) = (ds, rest) := by
  induction ds with
  | nil =>
    intro rest _ hrest
    match rest with
    | [] => rfl
    | c :: r =>
      simp only [restOk, Bool.not_eq_true'] at hrest
      simp [takeDigits, hrest]
  | cons c ds ih =>
    intro rest hds hrest
    have hc : isDigitChar c = true := hds c (by simp)
    simp only [List.cons_append, takeDigits, hc, if_pos]
    have := ih rest (fun x hx => hds x (by simp [hx])) hrest
    rw [show ds.append rest = ds ++ rest from rfl, this]

theorem parseNat_natRepr (n : Nat) (rest : List Char) (hrest : restOk rest = true) :
    parseNat (natRepr n ++ rest) = some (n, rest) := by
  rw [parseNat, takeDigits_of_digits _ _ (natRepr_digits n) hrest]
  rcases hn : natRepr n with _ | ⟨d, ds⟩
  · exact absurd hn (natRepr_ne_nil n)
  · rw [← hn]
    simp only [hn]
    rw [← hn, digitsToNat_natRepr]

theorem skipWs_not_ws (c : Char) (cs : List Char) (h : isWsChar c = false) :
    skipWs (c :: cs) = c :: cs := by
  simp [skipWs, h]

theorem skipWs_ws (c : Char) (cs : List Char) (h : isWsChar c = true) :
    skipWs (c :: cs) = skipWs cs := by
  simp [skipWs, h]

theorem skipWs_spaces (k : Nat) (cs : List Char) : skipWs (spaces k ++ cs) = skipWs cs := by
  induction k with
  | zero => rfl
  | succ k ih =>
    rw [spaces, List.replicate_succ, List.cons_append, skipWs_ws _ _ (by decide)]
    exact ih

theorem skipWs_newline (cs : List Char) : skipWs ('\n' :: cs) = skipWs cs :=
  skipWs_ws _ _ (by decide)

theorem jsize_pos (j : Json) : 1 ≤ jsize j := by
  cases j <;> simp [jsize]


theorem digit_not_char (c d : Char) (h : isDigitChar c = true) (hd : d.toNat < 48 ∨ 57 < d.toNat) :
    (c = d) = False := by
  simp only [isDigitChar, Bool.and_eq_true, decide_eq_true_eq] at h
  simp only [char_eq_toNat, eq_iff_iff, iff_false]
  omega

theorem digit_not_ws (c : Char) (h : isDigitChar c = true) : isWsChar c = false := by
  simp only [isDigitChar, Bool.and_eq_true, decide_eq_true_eq] at h
  simp only [isWsChar, char_eq_toNat, Bool.or_eq_false_iff, decide_eq_false_iff_not]
  have h1 : (' ').toNat = 32 := rfl
  have h2 : ('\n').toNat = 10 := rfl
  have h3 : ('\t').toNat = 9 := rfl
  have h4 : ('\r').toNat = 13 := rfl
  omega

theorem natRepr_head (n : Nat) :
    ∃ d ds, natRepr n = d :: ds ∧ isDigitChar d = true := by
  rcases hn : natRepr n with _ | ⟨d, ds⟩
  · exact absurd hn (natRepr_ne_nil n)
  · exact ⟨d, ds, rfl, natRepr_digits n d (by rw [hn]; simp)⟩

theorem dumps_head (k : Nat) (j : Json) :
    ∃ c cs, dumps k j = c :: cs ∧ isWsChar c = false ∧ (c = ']') = False := by
  cases j with
  | null => exact ⟨'n', _, rfl, by decide, by decide⟩
  | bool b => cases b
              · exact ⟨'f', _, rfl, by decide, by decide⟩
              · exact ⟨'t', _, rfl, by decide, by decide⟩
  | num n =>
    rw [dumps, intRepr]
    by_cases hneg : n < 0
    · rw [if_pos hneg]
      exact ⟨'-', _, rfl, by decide, by decide⟩
    · rw [if_neg hneg]
      obtain ⟨d, ds, hds, hd⟩ := natRepr_head n.toNat
      rw [hds]
      exact ⟨d, ds, rfl, digit_not_ws d hd, digit_not_char d ']' hd (by decide)⟩
  | str s => exact ⟨'"', _, rfl, by decide, by decide⟩
  | arr a => cases a
             · exact ⟨'[', _, rfl, by decide, by decide⟩
             · exact ⟨'[', _, rfl, by decide, by decide⟩
  | obj o => cases o
             · exact ⟨lbrace, _, rfl, by decide, by decide⟩
             · exact ⟨lbrace, _, rfl, by decide, by decide⟩


theorem parseValue_skip (f : Nat) (cs cs' : List Char) (h : skipWs cs = skipWs cs') :
    parseValue f cs = parseValue f cs' := by
  cases f with
  | zero => rfl
  | succ f =>
    rw [parseValue.eq_2, parseValue.eq_2, h]

theorem parseFields_skip (f : Nat) (cs cs' : List Char) (h : skipWs cs = skipWs cs') :
    parseFields f cs = parseFields f cs' := by
  cases f with
  | zero => rfl
  | succ f =>
    rw [parseFields.eq_2, parseFields.eq_2, h]


theorem dumpsItems_cons_shape (k2 : Nat) (h : Json) (t : JsonArr) :
    ∃ tail, dumpsItems k2 (.cons h t) = spaces k2 ++ (dumps k2 h ++ tail) := by
  cases t with
  | nil => exact ⟨[], by rw [dumpsItems]; simp⟩
  | cons h2 t2 =>
    exact ⟨',' :: '\n' :: dumpsItems k2 (.cons h2 t2), by rw [dumpsItems]; simp⟩

theorem dumpsFields_cons_shape (k2 : Nat) (key : String) (v : Json) (t : JsonObj) :
    ∃ tail, dumpsFields k2 (.cons key v t) = spaces k2 ++ ('"' :: tail) := by
  cases t with
  | nil => exact ⟨escapeChars key.data ++ ('"' :: ':' :: ' ' :: dumps k2 v), by rw [dumpsFields]⟩
  | cons k3 v3 t3 =>
    refine ⟨escapeChars key.data ++ ('"' :: ':' :: ' ' ::
      (dumps k2 v ++ (',' :: '\n' :: dumpsFields k2 (.cons k3 v3 t3)))), ?_⟩
    rw [dumpsFields]
    simp
set_option maxHeartbeats 1000000 in
theorem parse_dumps_all (fuel : Nat) :
    (∀ j k rest, jsize j ≤ fuel → restOk rest = true →
      parseValue fuel (dumps k j ++ rest) = some (j, rest))
    ∧ (∀ h t k2 ksp rest, asize (.cons h t) ≤ fuel →
      parseElems fuel
        ('\n' :: (dumpsItems k2 (.cons h t) ++ '\n' :: (spaces ksp ++ ']' :: rest)))
        = some (.cons h t, rest))
    ∧ (∀ key v t k2 ksp rest, osize (.cons key v t) ≤ fuel →
      parseFields fuel
        ('\n' :: (dumpsFields k2 (.cons key v t) ++ '\n' :: (spaces ksp ++ rbrace :: rest)))
        = some (.cons key v t, rest)) := by
  induction fuel using Nat.strong_induction_on with
  | _ fuel ih =>
    refine ⟨?_, ?_, ?_⟩
    · -- parseValue round trip
      intro j k rest hsz hrest
      rcases fuel with _ | fuel
      · exact absurd hsz (by have := jsize_pos j; omega)
      cases j with
      | null =>
        rw [dumps, parseValue.eq_2]
        simp [skipWs_not_ws _ _ (by decide : isWsChar 'n' = false)]
      | bool b =>
        cases b
        · rw [dumps, parseValue.eq_2]
          simp [skipWs_not_ws _ _ (by decide : isWsChar 'f' = false)]
        · rw [dumps, parseValue.eq_2]
          simp [skipWs_not_ws _ _ (by decide : isWsChar 't' = false)]
      | num n =>
        rw [dumps, intRepr]
        by_cases hneg : n < 0
        · rw [if_pos hneg, List.cons_append, parseValue.eq_2,
            skipWs_not_ws _ _ (by decide : isWsChar '-' = false)]
          simp [parseNat_natRepr _ _ hrest, show (('-' : Char) = lbrace) = False from by decide,
            show -(n.natAbs : Int) = n from by omega, abs_of_neg hneg]
        · rw [if_neg hneg]
          obtain ⟨d, ds, hds, hd⟩ := natRepr_head n.toNat
          rw [hds, List.cons_append, parseValue.eq_2,
            skipWs_not_ws _ _ (digit_not_ws d hd)]
          have hpn : parseNat (d :: (ds ++ rest)) = some (n.toNat, rest) := by
            rw [show d :: (ds ++ rest) = natRepr n.toNat ++ rest from by rw [hds]; rfl]
            exact parseNat_natRepr _ _ hrest
          simp [digit_not_char d 'n' hd (by decide), digit_not_char d 't' hd (by decide),
            digit_not_char d 'f' hd (by decide), digit_not_char d '"' hd (by decide),
            digit_not_char d '[' hd (by decide), digit_not_char d lbrace hd (by decide),
            digit_not_char d '-' hd (by decide), hd, hpn,
            show ((n.toNat : Int)) = n from by omega]
      | str s =>
        rw [dumps, List.cons_append, List.append_assoc, List.singleton_append,
          parseValue.eq_2, skipWs_not_ws _ _ (by decide : isWsChar '"' = false)]
        simp [parseStrBody_escape]
      | arr a =>
        cases a with
        | nil =>
          rw [dumps, parseValue.eq_2]
          simp [skipWs_not_ws _ _ (by decide : isWsChar '[' = false),
            skipWs_not_ws _ _ (by decide : isWsChar ']' = false)]
        | cons h t =>
          rw [dumps, parseValue.eq_2]
          simp only [List.cons_append, List.append_assoc, List.singleton_append,
            List.nil_append]
          rw [skipWs_not_ws _ _ (by decide : isWsChar '[' = false)]
          obtain ⟨tail, htail⟩ := dumpsItems_cons_shape (k + 2) h t
          obtain ⟨c0, cs0, hc0, hws0, hne0⟩ := dumps_head (k + 2) h
          have hskip : skipWs ('\n' :: (dumpsItems (k + 2) (.cons h t) ++
              '\n' :: (spaces k ++ ']' :: rest))) = c0 :: (cs0 ++ (tail ++
              '\n' :: (spaces k ++ ']' :: rest))) := by
            rw [htail, skipWs_newline]
            simp only [List.append_assoc]
            rw [skipWs_spaces, hc0]
            simp only [List.cons_append]
            rw [skipWs_not_ws _ _ hws0]
          have helems := (ih fuel (by omega)).2.1 h t (k + 2) k rest
            (by have := jsize_pos h; simp [jsize, asize] at hsz ⊢; omega)
          simp only [show ('[' = 'n') = False from by decide,
            show ('[' = 't') = False from by decide, show ('[' = 'f') = False from by decide,
            show ('[' = '"') = False from by decide, if_false, if_true, if_pos rfl]
          rw [helems, hskip]
          simp [hne0]
      | obj o =>
        cases o with
        | nil =>
          rw [dumps, parseValue.eq_2]
          simp [skipWs_not_ws _ _ (by decide : isWsChar lbrace = false),
            show (lbrace = 'n') = False from by decide,
            show (lbrace = 't') = False from by decide,
            show (lbrace = 'f') = False from by decide,
            show (lbrace = '"') = False from by decide,
            show (lbrace = '[') = False from by decide,
            skipWs_not_ws _ _ (by decide : isWsChar rbrace = false)]
        | cons key v t =>
          rw [dumps, parseValue.eq_2]
          simp only [List.cons_append, List.append_assoc, List.singleton_append,
            List.nil_append]
          rw [skipWs_not_ws _ _ (by decide : isWsChar lbrace = false)]
          obtain ⟨tail, htail⟩ := dumpsFields_cons_shape (k + 2) key v t
          have hskip : skipWs ('\n' :: (dumpsFields (k + 2) (.cons key v t) ++
              '\n' :: (spaces k ++ rbrace :: rest))) = '"' :: (tail ++
              '\n' :: (spaces k ++ rbrace :: rest)) := by
            rw [htail, skipWs_newline]
            simp only [List.append_assoc]
            rw [skipWs_spaces]
            simp only [List.cons_append]
            rw [skipWs_not_ws _ _ (by decide : isWsChar '"' = false)]
          have hfields := (ih fuel (by omega)).2.2 key v t (k + 2) k rest
            (by have := jsize_pos v; simp [jsize, osize] at hsz ⊢; omega)
          simp only [show (lbrace = 'n') = False from by decide,
            show (lbrace = 't') = False from by decide,
            show (lbrace = 'f') = False from by decide,
            show (lbrace = '"') = False from by decide,
            show (lbrace = '[') = False from by decide,
            if_false, if_true, if_pos rfl]
          rw [hfields, hskip]
          simp [show ('"' = rbrace) = False from by decide]
    · -- parseElems round trip
      intro h t k2 ksp rest hsz
      rcases fuel with _ | f
      · have := jsize_pos h; simp [asize] at hsz
      have hszh : jsize h ≤ f := by have := jsize_pos h; simp [asize] at hsz; omega
      cases t with
      | nil =>
        rw [parseElems.eq_2]
        have hv := (ih f (by omega)).1 h k2 ('\n' :: (spaces ksp ++ ']' :: rest))
          hszh (by rfl)
        have hpv : parseValue f ('\n' :: (dumpsItems k2 (.cons h .nil) ++
            '\n' :: (spaces ksp ++ ']' :: rest))) =
            some (h, '\n' :: (spaces ksp ++ ']' :: rest)) := by
          rw [← hv]
          apply parseValue_skip
          rw [dumpsItems, skipWs_newline]
          simp only [List.append_assoc]
          rw [skipWs_spaces]
        have hsk : skipWs ('\n' :: (spaces ksp ++ ']' :: rest)) = ']' :: rest := by
          rw [skipWs_newline, skipWs_spaces,
            skipWs_not_ws _ _ (by decide : isWsChar ']' = false)]
        rw [hpv]
        simp [hsk, show ((']' : Char) = ',') = False from by decide]
      | cons h2 t2 =>
        rw [parseElems.eq_2]
        have hv := (ih f (by omega)).1 h k2 (',' :: ('\n' :: (dumpsItems k2 (.cons h2 t2) ++
          '\n' :: (spaces ksp ++ ']' :: rest)))) hszh (by rfl)
        have hpv : parseValue f ('\n' :: (dumpsItems k2 (.cons h (.cons h2 t2)) ++
            '\n' :: (spaces ksp ++ ']' :: rest))) =
            some (h, ',' :: ('\n' :: (dumpsItems k2 (.cons h2 t2) ++
              '\n' :: (spaces ksp ++ ']' :: rest)))) := by
          rw [← hv]
          apply parseValue_skip
          rw [dumpsItems, skipWs_newline]
          simp only [List.append_assoc, List.cons_append]
          rw [skipWs_spaces]
        have hsk : skipWs (',' :: ('\n' :: (dumpsItems k2 (.cons h2 t2) ++
            '\n' :: (spaces ksp ++ ']' :: rest)))) =
            ',' :: ('\n' :: (dumpsItems k2 (.cons h2 t2) ++
            '\n' :: (spaces ksp ++ ']' :: rest))) :=
          skipWs_not_ws _ _ (by decide)
        have hrec := (ih f (by omega)).2.1 h2 t2 k2 ksp rest
          (by have := jsize_pos h; simp [asize] at hsz ⊢; omega)
        rw [hpv]
        simp [hsk, hrec]
    · -- parseFields round trip
      intro key v t k2 ksp rest hsz
      rcases fuel with _ | f
      · have := jsize_pos v; simp [osize] at hsz
      have hszv : jsize v ≤ f := by have := jsize_pos v; simp [osize] at hsz; omega
      cases t with
      | nil =>
        rw [parseFields.eq_2]
        have hsk1 : skipWs ('\n' :: (dumpsFields k2 (.cons key v .nil) ++
            '\n' :: (spaces ksp ++ rbrace :: rest))) =
            '"' :: (escapeChars key.data ++ ('"' :: (':' :: ' ' ::
              (dumps k2 v ++ ('\n' :: (spaces ksp ++ rbrace :: rest)))))) := by
          rw [dumpsFields, skipWs_newline]
          simp only [List.append_assoc, List.cons_append]
          rw [skipWs_spaces, skipWs_not_ws _ _ (by decide : isWsChar '"' = false)]
        have hstr := parseStrBody_escape key.data
          (':' :: ' ' :: (dumps k2 v ++ ('\n' :: (spaces ksp ++ rbrace :: rest))))
        have hv := (ih f (by omega)).1 v k2 ('\n' :: (spaces ksp ++ rbrace :: rest))
          hszv (by rfl)
        have hpv : parseValue f (' ' :: (dumps k2 v ++
            ('\n' :: (spaces ksp ++ rbrace :: rest)))) =
            some (v, '\n' :: (spaces ksp ++ rbrace :: rest)) := by
          rw [← hv]
          apply parseValue_skip
          rw [skipWs_ws _ _ (by decide : isWsChar ' ' = true)]
        have hskc : skipWs (':' :: ' ' :: (dumps k2 v ++
            ('\n' :: (spaces ksp ++ rbrace :: rest)))) =
            ':' :: ' ' :: (dumps k2 v ++ ('\n' :: (spaces ksp ++ rbrace :: rest))) :=
          skipWs_not_ws _ _ (by decide)
        have hskT : skipWs ('\n' :: (spaces ksp ++ rbrace :: rest)) = rbrace :: rest := by
          rw [skipWs_newline, skipWs_spaces,
            skipWs_not_ws _ _ (by decide : isWsChar rbrace = false)]
        rw [hsk1]
        simp [hstr, hskc, hpv, hskT, show ((rbrace : Char) = ',') = False from by decide]
      | cons k3 v3 t3 =>
        rw [parseFields.eq_2]
        have hsk1 : skipWs ('\n' :: (dumpsFields k2 (.cons key v (.cons k3 v3 t3)) ++
            '\n' :: (spaces ksp ++ rbrace :: rest))) =
            '"' :: (escapeChars key.data ++ ('"' :: (':' :: ' ' ::
              (dumps k2 v ++ (',' :: ('\n' :: (dumpsFields k2 (.cons k3 v3 t3) ++
                ('\n' :: (spaces ksp ++ rbrace :: rest))))))))) := by
          rw [dumpsFields, skipWs_newline]
          simp only [List.append_assoc, List.cons_append]
          rw [skipWs_spaces, skipWs_not_ws _ _ (by decide : isWsChar '"' = false)]
        have hstr := parseStrBody_escape key.data
          (':' :: ' ' :: (dumps k2 v ++ (',' :: ('\n' ::
            (dumpsFields k2 (.cons k3 v3 t3) ++ ('\n' :: (spaces ksp ++ rbrace :: rest)))))))
        have hv := (ih f (by omega)).1 v k2 (',' :: ('\n' ::
          (dumpsFields k2 (.cons k3 v3 t3) ++ ('\n' :: (spaces ksp ++ rbrace :: rest)))))
          hszv (by rfl)
        have hpv : parseValue f (' ' :: (dumps k2 v ++ (',' :: ('\n' ::
            (dumpsFields k2 (.cons k3 v3 t3) ++ ('\n' :: (spaces ksp ++ rbrace :: rest))))))) =
            some (v, ',' :: ('\n' :: (dumpsFields k2 (.cons k3 v3 t3) ++
              ('\n' :: (spaces ksp ++ rbrace :: rest))))) := by
          rw [← hv]
          apply parseValue_skip
          rw [skipWs_ws _ _ (by decide : isWsChar ' ' = true)]
        have hskc : skipWs (':' :: ' ' :: (dumps k2 v ++ (',' :: ('\n' ::
            (dumpsFields k2 (.cons k3 v3 t3) ++ ('\n' :: (spaces ksp ++ rbrace :: rest))))))) =
            ':' :: ' ' :: (dumps k2 v ++ (',' :: ('\n' ::
            (dumpsFields k2 (.cons k3 v3 t3) ++ ('\n' :: (spaces ksp ++ rbrace :: rest)))))) :=
          skipWs_not_ws _ _ (by decide)
        have hskco : skipWs (',' :: ('\n' :: (dumpsFields k2 (.cons k3 v3 t3) ++
            ('\n' :: (spaces ksp ++ rbrace :: rest))))) =
            ',' :: ('\n' :: (dumpsFields k2 (.cons k3 v3 t3) ++
            ('\n' :: (spaces ksp ++ rbrace :: rest)))) :=
          skipWs_not_ws _ _ (by decide)
        have hrec := (ih f (by omega)).2.2 k3 v3 t3 k2 ksp rest
          (by have := jsize_pos v; simp [osize] at hsz ⊢; omega)
        rw [hsk1]
        simp [hstr, hskc, hpv, hskco, hrec]


theorem parse_dumps (j : Json) : parseValue (jsize j) (dumps 0 j) = some (j, []) := by
  have h := (parse_dumps_all (jsize j)).1 j 0 [] le_rfl (by rfl)
  simpa using h

/-! ## Lemmas: completion shape and in-flight invariants -/

theorem completeRequest_shape (s : ChatState) (url message : String) (t : HttpAttempt) :
    ∃ e : Entry,
      completeRequest s url message t =
        ({ s with log := s.log ++ [e], threadRunning := false, inputEnabled := true },
         [.appendEntry e, .cleanupDone, .setInputsEnabled true])
      ∧ e.role = (if attemptSucceeds t then Role.agent else Role.error) := by
  cases t with
  | exc m =>
    refine ⟨⟨.error, "Erreur : " ++ m⟩, ?_, by simp [attemptSucceeds]⟩
    simp [completeRequest, requestWorkerRun, deliverEmits, deliverEmit, cleanup_thread,
      handle_error]
  | resp status body =>
    by_cases hrs : raiseForStatusFails status = true
    · refine ⟨⟨.error, "Erreur : " ++ httpErrorText status url⟩, ?_, by simp [attemptSucceeds, hrs]⟩
      simp [completeRequest, requestWorkerRun, hrs, deliverEmits, deliverEmit, cleanup_thread,
        handle_error]
    · refine ⟨⟨.agent, renderResponseText body⟩, ?_, by simp [attemptSucceeds, hrs]⟩
      simp [completeRequest, requestWorkerRun, hrs, deliverEmits, deliverEmit, cleanup_thread,
        handle_response]

theorem chatInv_of_reach (s : ChatState) (h : ChatReach s) : ChatInv s := by
  induction h with
  | init url => intro hrun; simp [initChat] at hrun
  | step s e _ ih =>
    cases e with
    | typeText t =>
      simp only [chatStep]
      split
      · next hen =>
        intro hrun
        simp only at hrun
        rcases ih hrun with ⟨_, hdis⟩
        rw [hen] at hdis
        cases hdis
      · exact ih
    | pressSend =>
      simp only [chatStep, send_message]
      split
      · exact ih
      split
      · intro hrun
        simp only at hrun
        exact ih hrun
      · intro _
        exact ⟨rfl, rfl⟩
    | setUrl u =>
      intro hrun
      simp only [chatStep] at hrun ⊢
      exact ih hrun
    | workerDone url message t =>
      simp only [chatStep]
      split
      · obtain ⟨e, hshape, _⟩ := completeRequest_shape s url message t
        rw [hshape]
        intro hrun
        simp at hrun
      · exact ih

theorem uploadWorkerRun_single (url : String) (files : List FileSpec) (t : HttpAttempt) :
    ∃ em, (uploadWorkerRun url files t).1 = [em] := by
  rw [uploadWorkerRun.eq_def]
  split
  · exact ⟨_, rfl⟩
  · rcases hfe : firstReadError files with _ | m
    · cases t with
      | exc m => exact ⟨.error m, by simp [hfe]⟩
      | resp status body =>
        by_cases hrs : raiseForStatusFails status = true
        · exact ⟨.error (httpErrorText status url), by simp [hfe, hrs]⟩
        · exact ⟨.finished body, by simp [hfe, hrs]⟩
    · exact ⟨.error m, by simp [hfe]⟩

theorem uploadDeliverEmit_state (s : UploadState) (em : Emit) :
    (uploadDeliverEmit s em).threadRunning = false
    ∧ (uploadDeliverEmit s em).inputsEnabled = true
    ∧ (uploadDeliverEmit s em).selectedFiles = s.selectedFiles := by
  cases em <;> simp [uploadDeliverEmit, upload_cleanup_thread, show_result]

theorem uploadInv_of_reach (s : UploadState) (h : UploadReach s) : UploadInv s := by
  induction h with
  | init url => intro hrun; simp [initUpload] at hrun
  | step s e _ ih =>
    cases e with
    | selectFiles ps =>
      simp only [uploadStep]
      split
      · next hen =>
        split
        · exact ih
        · next hps =>
          intro hrun
          simp only at hrun
          rcases ih hrun with ⟨_, hdis⟩
          rw [hen] at hdis
          cases hdis
      · exact ih
    | pressSend =>
      simp only [uploadStep, send_files]
      split
      · intro hrun
        simp only [show_result] at hrun
        exact ih hrun
      split
      · exact ih
      · next hne _ =>
        intro _
        exact ⟨hne, rfl⟩
    | setUrl u =>
      intro hrun
      simp only [uploadStep] at hrun ⊢
      exact ih hrun
    | workerDone url files t =>
      simp only [uploadStep]
      split
      · obtain ⟨em, hem⟩ := uploadWorkerRun_single url files t
        rw [hem]
        intro hrun
        simp only [List.foldl_cons, List.foldl_nil] at hrun
        rw [(uploadDeliverEmit_state s em).1] at hrun
        cases hrun
      · exact ih

/-! ## The claims -/

/-- C1: for every chat submission completion, exactly one terminal message
log entry is appended (role agent when `raise_for_status` passed, role
error otherwise) — never zero, never two — the cleanup step runs exactly
once in the delivery trace, and `_cleanup_thread` is idempotent. -/
theorem C1_one_terminal_entry_idempotent_cleanup :
    (∀ (s : ChatState) (url message : String) (t : HttpAttempt),
      (completeRequest s url message t).2.countP isAppendEffect = 1
      ∧ (completeRequest s url message t).2.countP isCleanupEffect = 1
      ∧ (completeRequest s url message t).1.log.length = s.log.length + 1
      ∧ (∃ e : Entry, (completeRequest s url message t).1.log = s.log ++ [e]
          ∧ e.role = (if attemptSucceeds t then Role.agent else Role.error)))
    ∧ (∀ s : ChatState, cleanup_thread (cleanup_thread s) = cleanup_thread s) := by
  constructor
  · intro s url message t
    obtain ⟨e, hshape, hrole⟩ := completeRequest_shape s url message t
    refine ⟨?_, ?_, ?_, e, ?_, hrole⟩ <;>
      simp [hshape, List.countP_cons, isAppendEffect, isCleanupEffect]
  · intro s
    rfl

/-- C2: while a request is in flight, a second call to the submit
operation is a no-op in both tabs — the state (hence the log) is unchanged
and no effect (hence no second background task) is produced — and
completion returns the chat tab to the idle, input-enabled state. -/
theorem C2_second_submit_is_noop :
    (∀ s : ChatState, ChatReach s → s.threadRunning = true →
      send_message s = (s, []))
    ∧ (∀ u : UploadState, UploadReach u → u.threadRunning = true →
      send_files u = (u, []))
    ∧ (∀ (s : ChatState) (url message : String) (t : HttpAttempt),
      s.threadRunning = true →
        (chatStep s (.workerDone url message t)).threadRunning = false
        ∧ (chatStep s (.workerDone url message t)).inputEnabled = true) := by
  refine ⟨?_, ?_, ?_⟩
  · intro s hr hrun
    obtain ⟨hempty, _⟩ := chatInv_of_reach s hr hrun
    simp [send_message, hempty, show pyStrip "" = "" from rfl]
  · intro u hr hrun
    obtain ⟨hne, _⟩ := uploadInv_of_reach u hr hrun
    simp [send_files, hne, hrun]
  · intro s url message t hrun
    obtain ⟨e, hshape, _⟩ := completeRequest_shape s url message t
    simp [chatStep, hrun, hshape]

/-- C2 witness: a concrete in-flight chat state and a concrete in-flight
upload state on which a second submit call leaves everything unchanged. -/
theorem C2_witness :
    send_message chatInFlight = (chatInFlight, [])
    ∧ send_files uploadInFlight = (uploadInFlight, [])
    ∧ (chatStep chatInFlight (.workerDone "http://x" "hi" (.exc "timeout"))).threadRunning
        = false :=
  ⟨C2_second_submit_is_noop.1 chatInFlight
      (ChatReach.step _ _ (ChatReach.step _ _ (ChatReach.init "http://x"))) (by decide),
   C2_second_submit_is_noop.2.1 uploadInFlight
      (UploadReach.step _ _ (UploadReach.step _ _ (UploadReach.init "http://x")))
      (by simp [uploadInFlight, uploadStep, initUpload, dedupKeepFirst, send_files]),
   (C2_second_submit_is_noop.2.2 chatInFlight "http://x" "hi" (.exc "timeout") (by decide)).1⟩

/-- C3 counterexample: the claim says every non-2xx HTTP status yields the
error signal, but `raise_for_status` only raises for 4xx and 5xx, so a 304
response — a non-2xx status — makes `RequestWorker.run` emit `finished`
(a Success), not `error`. -/
theorem C3_counterexample :
    (requestWorkerRun "http://h" "hello" (.resp 304 (.text "cached"))).1
      = [Emit.finished (.text "cached")]
    ∧ (304 < 200 ∨ 300 ≤ 304) :=
  ⟨rfl, Or.inr (by omega)⟩

/-- C3 (amended): both workers emit exactly one signal per run and never
let an exception escape; every transport-level failure (exception during
post, unreadable file) and every 4xx or 5xx status is emitted as the error
signal with a reason string; statuses outside 400..599 emit `finished`. -/
theorem C3_failures_as_data_one_signal :
    (∀ (url message : String) (t : HttpAttempt),
      (requestWorkerRun url message t).1.length = 1)
    ∧ (∀ (url message m : String),
      (requestWorkerRun url message (.exc m)).1 = [.error m])
    ∧ (∀ (url message : String) (status : Nat) (body : RespData),
      raiseForStatusFails status = true →
        (requestWorkerRun url message (.resp status body)).1
          = [.error (httpErrorText status url)])
    ∧ (∀ (url message : String) (status : Nat) (body : RespData),
      raiseForStatusFails status = false →
        (requestWorkerRun url message (.resp status body)).1 = [.finished body])
    ∧ (∀ (url : String) (files : List FileSpec) (t : HttpAttempt),
      (uploadWorkerRun url files t).1.length = 1)
    ∧ (∀ (url : String) (files : List FileSpec) (t : HttpAttempt) (m : String),
      url ≠ "" → firstReadError files = some m →
        (uploadWorkerRun url files t).1 = [.error m])
    ∧ (∀ (url : String) (files : List FileSpec) (m : String),
      url ≠ "" → firstReadError files = none →
        (uploadWorkerRun url files (.exc m)).1 = [.error m])
    ∧ (∀ (url : String) (files : List FileSpec) (status : Nat) (body : RespData),
      url ≠ "" → firstReadError files = none → raiseForStatusFails status = true →
        (uploadWorkerRun url files (.resp status body)).1
          = [.error (httpErrorText status url)]) := by
  refine ⟨?_, ?_, ?_, ?_, ?_, ?_, ?_, ?_⟩
  · intro url message t
    cases t with
    | exc m => rfl
    | resp status body =>
      by_cases hrs : raiseForStatusFails status = true <;>
        simp [requestWorkerRun, hrs]
  · intro url message m
    rfl
  · intro url message status body hrs
    simp [requestWorkerRun, hrs]
  · intro url message status body hrs
    simp [requestWorkerRun, hrs]
  · intro url files t
    obtain ⟨em, hem⟩ := uploadWorkerRun_single url files t
    rw [hem]
    rfl
  · intro url files t m hurl hfe
    cases t <;> simp [uploadWorkerRun, hurl, hfe]
  · intro url files m hurl hfe
    simp [uploadWorkerRun, hurl, hfe]
  · intro url files status body hurl hfe hrs
    simp [uploadWorkerRun, hurl, hfe, hrs]

/-- C3 witness: concrete failing and succeeding runs of both workers. -/
theorem C3_witness :
    (requestWorkerRun "http://x" "hi" (.resp 500 (.text "boom"))).1
      = [.error (httpErrorText 500 "http://x")]
    ∧ (requestWorkerRun "http://x" "hi" (.resp 200 (.text "ok"))).1
      = [.finished (.text "ok")]
    ∧ (uploadWorkerRun "http://x" [⟨"a.txt", .err "unreadable file"⟩]
        (.resp 200 (.text "ok"))).1 = [.error "unreadable file"]
    ∧ (uploadWorkerRun "http://x" oneFile (.exc "connection refused")).1
      = [.error "connection refused"]
    ∧ (uploadWorkerRun "http://x" oneFile (.resp 404 (.text "nf"))).1
      = [.error (httpErrorText 404 "http://x")] :=
  ⟨C3_failures_as_data_one_signal.2.2.1 "http://x" "hi" 500 (.text "boom") (by decide),
   C3_failures_as_data_one_signal.2.2.2.1 "http://x" "hi" 200 (.text "ok") (by decide),
   C3_failures_as_data_one_signal.2.2.2.2.2.1 "http://x" [⟨"a.txt", .err "unreadable file"⟩]
     (.resp 200 (.text "ok")) "unreadable file" (by decide) rfl,
   C3_failures_as_data_one_signal.2.2.2.2.2.2.1 "http://x" oneFile "connection refused"
     (by decide) rfl,
   C3_failures_as_data_one_signal.2.2.2.2.2.2.2 "http://x" oneFile 404 (.text "nf")
     (by decide) rfl (by decide)⟩

/-- C4: a submission against an empty endpoint URL short-circuits to the
no-webhook error without any network request: the chat tab appends the
error bubble and does not dispatch a thread; the upload worker emits only
the error signal and posts nothing. -/
theorem C4_empty_url_short_circuit :
    (∀ s : ChatState, pyStrip s.inputText ≠ "" → s.webhookUrl = "" →
      send_message s =
        ({ s with log := s.log ++ [⟨.error, "Aucun webhook configuré."⟩] },
         [.appendEntry ⟨.error, "Aucun webhook configuré."⟩])
      ∧ (send_message s).1.threadRunning = s.threadRunning
      ∧ Effect.dispatchThread ∉ (send_message s).2)
    ∧ (∀ (files : List FileSpec) (t : HttpAttempt),
      uploadWorkerRun "" files t = ([.error "Aucun webhook configuré."], none)) := by
  constructor
  · intro s hmsg hurl
    have h1 : send_message s =
        ({ s with log := s.log ++ [⟨.error, "Aucun webhook configuré."⟩] },
         [.appendEntry ⟨.error, "Aucun webhook configuré."⟩]) := by
      simp [send_message, hmsg, hurl]
    refine ⟨h1, ?_, ?_⟩ <;> simp [h1]
  · intro files t
    rfl

/-- C4 witness: the concrete no-webhook chat state and a concrete upload
run with an empty URL. -/
theorem C4_witness :
    send_message chatNoUrl =
      ({ chatNoUrl with log := [⟨.error, "Aucun webhook configuré."⟩] },
       [.appendEntry ⟨.error, "Aucun webhook configuré."⟩])
    ∧ uploadWorkerRun "" oneFile (.resp 200 (.text "ok"))
      = ([.error "Aucun webhook configuré."], none) :=
  ⟨(C4_empty_url_short_circuit.1 chatNoUrl (by decide) rfl).1,
   C4_empty_url_short_circuit.2 oneFile (.resp 200 (.text "ok"))⟩

/-- C5: rendering a Success outcome round-trips — a dict or list renders as
its pretty-printed JSON, which re-parses to an equal value; a string (parsed
or raw body text) renders as exactly that string. -/
theorem C5_success_rendering_roundtrip :
    (∀ j : Json, isStructured j = true →
      (renderResponseText (.json j)).data = dumps 0 j
      ∧ parseValue (jsize j) ((renderResponseText (.json j)).data) = some (j, []))
    ∧ (∀ s : String,
      renderResponseText (.json (.str s)) = s ∧ renderResponseText (.text s) = s) := by
  constructor
  · intro j hj
    cases j with
    | arr a => exact ⟨rfl, parse_dumps _⟩
    | obj o => exact ⟨rfl, parse_dumps _⟩
    | null => simp [isStructured] at hj
    | bool b => simp [isStructured] at hj
    | num n => simp [isStructured] at hj
    | str s => simp [isStructured] at hj
  · intro s
    exact ⟨rfl, rfl⟩

/-- C5 witness: the concrete dict from the specification scenario renders
as its pretty JSON and parses back to itself. -/
theorem C5_witness :
    (renderResponseText (.json (Json.obj (.cons "reply" (.str "hi") .nil)))).data
      = dumps 0 (Json.obj (.cons "reply" (.str "hi") .nil))
    ∧ parseValue (jsize (Json.obj (.cons "reply" (.str "hi") .nil)))
        ((renderResponseText (.json (Json.obj (.cons "reply" (.str "hi") .nil)))).data)
      = some (Json.obj (.cons "reply" (.str "hi") .nil), []) :=
  C5_success_rendering_roundtrip.1 (Json.obj (.cons "reply" (.str "hi") .nil)) rfl

/-- C6: every accepted submission produces exactly one user-originated
display write, strictly before the background thread is dispatched: the
chat tab appends exactly one user-role bubble, the upload tab writes the
progress text once. -/
theorem C6_user_entry_before_dispatch :
    (∀ s : ChatState, Effect.dispatchThread ∈ (send_message s).2 →
      ∃ pre, (send_message s).2 = pre ++ [Effect.dispatchThread]
        ∧ pre.countP isUserAppend = 1
        ∧ (send_message s).2.countP isUserAppend = 1)
    ∧ (∀ u : UploadState, Effect.dispatchThread ∈ (send_files u).2 →
      ∃ pre, (send_files u).2 = pre ++ [Effect.dispatchThread]
        ∧ pre.countP isShowResult = 1
        ∧ Effect.showResult "Envoi en cours…" ∈ pre) := by
  constructor
  · intro s hmem
    by_cases h1 : pyStrip s.inputText = ""
    · simp [send_message, h1] at hmem
    by_cases h2 : s.webhookUrl = ""
    · simp [send_message, h1, h2] at hmem
    refine ⟨[.appendEntry ⟨.user, pyStrip s.inputText⟩, .clearInput,
      .setInputsEnabled false], ?_, ?_, ?_⟩ <;>
      simp [send_message, h1, h2, List.countP_cons, isUserAppend]
  · intro u hmem
    by_cases h1 : u.selectedFiles = []
    · simp [send_files, h1] at hmem
    by_cases h2 : u.threadRunning = true
    · simp [send_files, h1, h2] at hmem
    refine ⟨[.showResult "Envoi en cours…", .setInputsEnabled false], ?_, ?_, ?_⟩ <;>
      simp [send_files, h1, h2, List.countP_cons, isShowResult]

/-- C6 witness: the ready chat and upload states dispatch with exactly one
preceding user-originated display write. -/
theorem C6_witness :
    (∃ pre, (send_message chatReady).2 = pre ++ [Effect.dispatchThread]
      ∧ pre.countP isUserAppend = 1
      ∧ (send_message chatReady).2.countP isUserAppend = 1)
    ∧ (∃ pre, (send_files uploadReady).2 = pre ++ [Effect.dispatchThread]
      ∧ pre.countP isShowResult = 1
      ∧ Effect.showResult "Envoi en cours…" ∈ pre) :=
  ⟨C6_user_entry_before_dispatch.1 chatReady (by decide),
   C6_user_entry_before_dispatch.2 uploadReady (by decide)⟩

theorem buildParts_fields (files : List FileSpec) :
    ∀ i, (buildParts i files).map UploadPart.field
      = (List.range files.length).map (fun k => "file" ++ String.mk (natRepr (i + k))) := by
  induction files with
  | nil => intro i; rfl
  | cons f fs ih =>
    intro i
    simp only [buildParts, List.map_cons, List.length_cons, List.range_succ_eq_map,
      List.map_map, ih (i + 1)]
    congr 1
    apply List.map_congr_left
    intro k _
    simp only [Function.comp]
    rw [show i + 1 + k = i + Nat.succ k from by omega]

theorem buildParts_filenames (files : List FileSpec) :
    ∀ i, (buildParts i files).map UploadPart.filename = files.map FileSpec.name := by
  induction files with
  | nil => intro i; rfl
  | cons f fs ih => intro i; simp [buildParts, ih (i + 1)]

theorem buildParts_contentType (files : List FileSpec) :
    ∀ i, ∀ p ∈ buildParts i files, p.contentType = "text/plain" := by
  induction files with
  | nil => intro i p hp; simp [buildParts] at hp
  | cons f fs ih =>
    intro i p hp
    simp only [buildParts, List.mem_cons] at hp
    rcases hp with hp | hp
    · rw [hp]
    · exact ih (i + 1) p hp

/-- C7: the transport encodes a text message as the JSON body
`{"message": body}` posted to the endpoint URL with a 20 second timeout
(inside the specified 15-20 second range), and a file batch as multipart
parts named `file0`, `file1`, ... in input order, each carrying the
original filename and the `text/plain` content type, posted with a 60
second timeout. -/
theorem C7_request_encodings :
    (∀ (url message : String) (t : HttpAttempt),
      (requestWorkerRun url message t).2
        = ⟨url, Json.obj (.cons "message" (.str message) .nil), 20⟩
      ∧ 15 ≤ (requestWorkerRun url message t).2.timeout
      ∧ (requestWorkerRun url message t).2.timeout ≤ 20)
    ∧ (∀ (url : String) (files : List FileSpec) (t : HttpAttempt) (req : UploadRequest),
      (uploadWorkerRun url files t).2 = some req →
        req.url = url
        ∧ req.timeout = 60
        ∧ req.parts.map UploadPart.field
            = (List.range files.length).map (fun k => "file" ++ String.mk (natRepr k))
        ∧ req.parts.map UploadPart.filename = files.map FileSpec.name
        ∧ ∀ p ∈ req.parts, p.contentType = "text/plain") := by
  constructor
  · intro url message t
    exact ⟨rfl, by show (15 : Nat) ≤ 20; decide, by show (20 : Nat) ≤ 20; decide⟩
  · intro url files t req hreq
    have hform : req = ⟨url, buildParts 0 files, 60⟩ := by
      rw [uploadWorkerRun.eq_def] at hreq
      split at hreq
      · cases hreq
      · split at hreq
        · cases hreq
        · cases t with
          | exc m => cases hreq; rfl
          | resp status body =>
            by_cases hrs : raiseForStatusFails status = true <;>
              simp [hrs] at hreq <;> rw [← hreq]
    have hfe : req.parts.map UploadPart.field
        = (List.range files.length).map (fun k => "file" ++ String.mk (natRepr (0 + k))) := by
      rw [hform]
      exact buildParts_fields files 0
    refine ⟨by rw [hform], by rw [hform], ?_,
      by rw [hform]; exact buildParts_filenames files 0,
      by rw [hform]; exact buildParts_contentType files 0⟩
    rw [hfe]
    apply List.map_congr_left
    intro k _
    rw [show 0 + k = k from by omega]

/-- C7 witness: the concrete chat request and a concrete two-file upload
request with parts `file0`, `file1` at timeout 60. -/
theorem C7_witness :
    (requestWorkerRun "http://x" "hi" (.resp 200 (.text "ok"))).2
      = ⟨"http://x", Json.obj (.cons "message" (.str "hi") .nil), 20⟩
    ∧ uploadReq2.timeout = 60
    ∧ uploadReq2.parts.map UploadPart.field
        = (List.range twoFiles.length).map (fun k => "file" ++ String.mk (natRepr k)) :=
  ⟨(C7_request_encodings.1 "http://x" "hi" (.resp 200 (.text "ok"))).1,
   (C7_request_encodings.2 "http://x" twoFiles (.resp 200 (.text "ok")) uploadReq2 rfl).2.1,
   (C7_request_encodings.2 "http://x" twoFiles (.resp 200 (.text "ok")) uploadReq2 rfl).2.2.1⟩

/-- C8 counterexample: in the MainWindow variant, a failed configuration
save is reported through the params tab status label, not through a
blocking notification, refuting the claim that every variant reports the
failure via a blocking notification. -/
theorem C8_counterexample :
    isBlockingNotification (save_webhook mainWin0 (some "Permission denied")).2 = false
    ∧ (save_webhook mainWin0 (some "Permission denied")).2
        = .label ("Erreur lors de la sauvegarde : Permission denied") :=
  ⟨rfl, rfl⟩

/-- C8 (amended): a failed configuration save is reported to the user — via
a blocking message box in the WebhookClient variant and via the status
label in the MainWindow variant — and in both variants the lifecycle state
(message log, in-flight status, input enablement) is untouched. -/
theorem C8_save_failure_reported_lifecycle_untouched :
    (∀ st : AppState,
      isBlockingNotification (handle_save_settings st false).2 = true
      ∧ (handle_save_settings st false).1.chatDisplay = st.chatDisplay
      ∧ (handle_save_settings st false).1.chatInput = st.chatInput
      ∧ (handle_save_settings st false).1.statusText = st.statusText)
    ∧ (∀ (w : MainWinState) (e : String),
      (save_webhook w (some e)).2 = .label ("Erreur lors de la sauvegarde : " ++ e)
      ∧ (save_webhook w (some e)).1.chat = w.chat
      ∧ (save_webhook w (some e)).1.upload = w.upload) := by
  constructor
  · intro st
    exact ⟨rfl, rfl, rfl, rfl⟩
  · intro w e
    exact ⟨rfl, rfl, rfl⟩

theorem dictGet_append (a b : List (String × Json)) (key : String) :
    dictGet (a ++ b) key
      = match dictGet b key with
        | some v => some v
        | none => dictGet a key := by
  induction a with
  | nil =>
    cases h : dictGet b key <;> simp [dictGet, h]
  | cons kv a ih =>
    obtain ⟨k, v⟩ := kv
    simp only [List.cons_append, dictGet]
    rw [show a.append b = a ++ b from rfl, ih]
    cases h : dictGet b key <;> cases h2 : dictGet a key <;> simp [dictGet, h, h2]

/-- C9 counterexample: the claim says `load_config` is total, but a
readable `config.json` whose bytes are not valid UTF-8 makes `json.load`
raise `UnicodeDecodeError`, which `except (OSError, json.JSONDecodeError)`
does not catch, so the call raises instead of returning the defaults. -/
theorem C9_counterexample :
    load_config ConfigFile.undecodable = Except.error PyExc.unicodeDecodeError :=
  rfl

/-- C9 (amended): for an absent file, an `OSError`, malformed JSON or a
JSON value that is not an object, `load_config` returns the default
configuration whose `webhook_url` is the empty string; for every file state
except undecodable bytes the result is a dict containing `webhook_url`;
when the file holds a JSON object, stored keys override the defaults and
missing keys keep their default values. -/
theorem C9_load_config_defaults_and_merge :
    load_config .absent = .ok DEFAULT_CONFIG
    ∧ load_config .osError = .ok DEFAULT_CONFIG
    ∧ load_config .malformed = .ok DEFAULT_CONFIG
    ∧ (∀ j : Json, isObjJson j = false → load_config (.parsed j) = .ok DEFAULT_CONFIG)
    ∧ dictGet DEFAULT_CONFIG "webhook_url" = some (.str "")
    ∧ (∀ f : ConfigFile, f ≠ .undecodable →
        ∃ d, load_config f = .ok d ∧ ∃ v, dictGet d "webhook_url" = some v)
    ∧ (∀ (o : JsonObj) (key : String) (v : Json),
        dictGet (objToList o) key = some v →
          configGet (load_config (.parsed (.obj o))) key = some v)
    ∧ (∀ (o : JsonObj) (key : String),
        dictGet (objToList o) key = none →
          configGet (load_config (.parsed (.obj o))) key = dictGet DEFAULT_CONFIG key) := by
  refine ⟨rfl, rfl, rfl, ?_, rfl, ?_, ?_, ?_⟩
  · intro j hj
    cases j <;> simp [load_config] <;> simp [isObjJson] at hj
  · intro f hf
    cases f with
    | absent => exact ⟨DEFAULT_CONFIG, rfl, .str "", rfl⟩
    | osError => exact ⟨DEFAULT_CONFIG, rfl, .str "", rfl⟩
    | undecodable => exact absurd rfl hf
    | malformed => exact ⟨DEFAULT_CONFIG, rfl, .str "", rfl⟩
    | parsed j =>
      cases j with
      | obj o =>
        refine ⟨DEFAULT_CONFIG ++ objToList o, rfl, ?_⟩
        rw [dictGet_append]
        cases h : dictGet (objToList o) "webhook_url" with
        | none => exact ⟨.str "", rfl⟩
        | some v => exact ⟨v, rfl⟩
      | null => exact ⟨DEFAULT_CONFIG, rfl, .str "", rfl⟩
      | bool b => exact ⟨DEFAULT_CONFIG, rfl, .str "", rfl⟩
      | num n => exact ⟨DEFAULT_CONFIG, rfl, .str "", rfl⟩
      | str s => exact ⟨DEFAULT_CONFIG, rfl, .str "", rfl⟩
      | arr a => exact ⟨DEFAULT_CONFIG, rfl, .str "", rfl⟩
  · intro o key v hv
    simp only [load_config, configGet]
    rw [dictGet_append, hv]
  · intro o key hv
    simp only [load_config, configGet]
    rw [dictGet_append, hv]

/-- C9 witness: a stored dict overrides `webhook_url`; a missing key keeps
its default; the absent-file state yields the defaults. -/
theorem C9_witness :
    configGet (load_config (.parsed (.obj (.cons "webhook_url" (.str "http://w") .nil))))
        "webhook_url" = some (.str "http://w")
    ∧ configGet (load_config (.parsed (.obj (.cons "other" (.num 1) .nil))))
        "webhook_url" = dictGet DEFAULT_CONFIG "webhook_url"
    ∧ (∃ d, load_config .absent = .ok d
        ∧ ∃ v, dictGet d "webhook_url" = some v) :=
  ⟨C9_load_config_defaults_and_merge.2.2.2.2.2.2.1
      (.cons "webhook_url" (.str "http://w") .nil) "webhook_url" (.str "http://w") rfl,
   C9_load_config_defaults_and_merge.2.2.2.2.2.2.2
      (.cons "other" (.num 1) .nil) "webhook_url" rfl,
   C9_load_config_defaults_and_merge.2.2.2.2.2.1 .absent (by simp)⟩

theorem pyStrip_all_space (s : String) (h : ∀ c ∈ s.data, isPySpace c = true) :
    pyStrip s = "" := by
  have h1 : s.data.dropWhile isPySpace = [] := by
    rw [List.dropWhile_eq_nil_iff]
    exact fun c hc => h c hc
  rw [pyStrip, stripChars, h1]
  rfl

/-- C10: a chat submission whose input is empty or all whitespace is a
no-op in both variants: the state — log, input text, input enablement,
thread status — is unchanged and no effect is produced. -/
theorem C10_blank_input_noop :
    (∀ s : ChatState, (∀ c ∈ s.inputText.data, isPySpace c = true) →
      send_message s = (s, []))
    ∧ (∀ st : AppState, (∀ c ∈ st.chatInput.data, isPySpace c = true) →
      handle_send_chat st = st) := by
  constructor
  · intro s h
    simp [send_message, pyStrip_all_space s.inputText h]
  · intro st h
    simp [handle_send_chat, pyStrip_all_space st.chatInput h]

/-- C10 witness: a whitespace-only input leaves both chat handlers
unchanged on concrete states. -/
theorem C10_witness :
    send_message { chatReady with inputText := " \t " }
      = ({ chatReady with inputText := " \t " }, [])
    ∧ handle_send_chat appState0 = appState0 :=
  ⟨C10_blank_input_noop.1 { chatReady with inputText := " \t " } (by decide),
   C10_blank_input_noop.2 appState0 (by decide)⟩
